import Mathlib

/-!
Shallow embedding of the SomaFM CardPuter player (src/src/main.cpp): the
playback command slot protocol, the audio task loop, the `DirectI2SOutput`
sample sink with its telemetry extractor, and the station-list operations.
Machine integers are modelled as `Int`/`Nat` with explicit wrapping where the
C code can overflow; C truncating division and arithmetic shifts are
`Int.tdiv` / `Int.fdiv`.
-/

namespace SomaFM

/-- One entry of the station directory (`struct Station`, main.cpp 73-82). -/
structure Station where
  id : String
  title : String
  desc : String
  genre : String
  imageUrl : String
  color : Nat
  listeners : Int
  fav : Bool
deriving DecidableEq, Repr, Inhabited

/-- Values of the audio command slot `aCmd`
(`ACMD_NONE / ACMD_STOP / ACMD_PLAY`, main.cpp 92-94). -/
inductive ACmd where
  | none
  | stop
  | play
deriving DecidableEq, Repr

/-- Application states (`enum AppState`, main.cpp 84-89). -/
inductive AppSt where
  | boot
  | browser
  | playing
  | error
deriving DecidableEq, Repr

/-- The globals of main.cpp that the command protocol, the application state
machine and the audio task read and write (main.cpp 99-124, 1162-1270).
`session` stands for the heap triple `(audioSrc, audioBuf, mp3)`: `some i`
is a live session streaming station index `i`, `none` means all three are
null.  `prefsLast` / `prefsFavs` model the NVS keys `"last"` / `"favs"`. -/
structure GState where
  stations : List Station
  selectedIdx : Int
  scrollOffset : Int
  playingIdx : Int
  appState : AppSt
  nowTrack : String
  aRunning : Bool
  aPaused : Bool
  aCmd : ACmd
  aTarget : Int
  session : Option Int
  volume : Nat
  tLastNP : Nat
  logoForIdx : Int
  logoValid : Bool
  logoDataLen : Nat
  prefsLast : String
  prefsFavs : String
  scrTitle : String
  scrGenre : String
  scrSong : String
deriving DecidableEq, Repr

/-- The `stationCount` global (main.cpp 100): the directory size. -/
def stationCount (s : GState) : Int := s.stations.length

/-- Read `stations[i]` for an index that the source has already guarded. -/
def stGet (l : List Station) (i : Int) : Station := l.getD i.toNat default

/-- Function `saveLastStation()` (main.cpp 600-606). -/
def saveLastStation (s : GState) : GState :=
  if 0 ≤ s.selectedIdx ∧ s.selectedIdx < stationCount s then
    { s with prefsLast := (stGet s.stations s.selectedIdx).id }
  else s

/-- Function `startPlaying(idx)` (main.cpp 1229-1240): unconditionally publish
`Play` into the command slot and update the UI-facing fields. -/
def startPlaying (idx : Int) (s : GState) : GState :=
  saveLastStation { s with
    aPaused := false, playingIdx := idx, selectedIdx := idx,
    aTarget := idx, aCmd := ACmd.play,
    scrTitle := "", scrGenre := "", scrSong := "" }

/-- Function `stopPlaying()` (main.cpp 1242-1245). -/
def stopPlaying (s : GState) : GState :=
  { s with aPaused := false, aCmd := ACmd.stop }

/-- The space-key action of `handlePlayerKeys` (main.cpp 1350):
`aPaused = !aPaused`. -/
def pauseToggle (s : GState) : GState := { s with aPaused := !s.aPaused }

/-- Function `freeLogo()` (main.cpp 679-684). -/
def freeLogo (s : GState) : GState :=
  { s with logoDataLen := 0, logoForIdx := -1, logoValid := false }

/-- The space-key branch of `handleBrowserKeys` (main.cpp 1312-1322). -/
def handleBrowserSpace (s : GState) : GState :=
  if 0 ≤ s.playingIdx then { s with aPaused := !s.aPaused }
  else
    { startPlaying s.selectedIdx (freeLogo { s with nowTrack := "" }) with
      appState := AppSt.playing, tLastNP := 0 }

/-- The skip-next branch of `handlePlayerKeys` (main.cpp 1354-1361).
C `%` truncates toward zero, hence `Int.tmod`. -/
def handleSkipNext (s : GState) : GState :=
  let next := Int.tmod (s.playingIdx + 1) (stationCount s)
  { startPlaying next (freeLogo { s with selectedIdx := next, nowTrack := "" }) with
    tLastNP := 0 }

/-- The skip-prev branch of `handlePlayerKeys` (main.cpp 1362-1369). -/
def handleSkipPrev (s : GState) : GState :=
  let prev := Int.tmod (s.playingIdx - 1 + stationCount s) (stationCount s)
  { startPlaying prev (freeLogo { s with selectedIdx := prev, nowTrack := "" }) with
    tLastNP := 0 }

/-- Constant `VISIBLE_LINES` = `((135 - 22 - 16) / 15)` = 6 (main.cpp 61-68). -/
def visibleLines : Int := 6

/-- Function `ensureVisible()` (main.cpp 608-611). -/
def ensureVisible (s : GState) : GState :=
  let maxOff := max 0 (stationCount s - visibleLines)
  { s with scrollOffset := max 0 (min (s.selectedIdx - visibleLines / 2) maxOff) }

/-- The comparator handed to `std::stable_sort` (main.cpp 637) is the strict
predicate `comp a b = a.fav && !b.fav`; a stable sort for `comp` is the
stable sort for the non-strict `le a b = !comp b a = a.fav || !b.fav`,
which is the relation `List.mergeSort` (also a stable sort) expects. -/
def favLE (a b : Station) : Bool := a.fav || !b.fav

/-- The `std::stable_sort` call of `sortStations` (main.cpp 636-637). -/
def sortStationsList (l : List Station) : List Station := l.mergeSort favLE

/-- The first `n` iterations of the index-restoring loop of `sortStations`
(main.cpp 640-643). -/
def restoreIdxAux (remId : String) (l : List Station) (n : Nat) (old : Int) : Int :=
  (List.range n).foldl
    (fun (acc : Int) (i : Nat) =>
      if 0 < remId.length ∧ (stGet l (i : Int)).id = remId then (i : Int) else acc)
    old

/-- The index-restoring loop of `sortStations` (main.cpp 640-643): the index
moves to the (last) position whose station id equals the remembered id;
an empty remembered id disables the restore (`selId.length() &&`). -/
def restoreIdx (remId : String) (l : List Station) (old : Int) : Int :=
  restoreIdxAux remId l l.length old

/-- Function `sortStations()` (main.cpp 628-645). -/
def sortStations (s : GState) : GState :=
  let selId := if 0 ≤ s.selectedIdx ∧ s.selectedIdx < stationCount s then
                 (stGet s.stations s.selectedIdx).id else ""
  let playId := if 0 ≤ s.playingIdx ∧ s.playingIdx < stationCount s then
                  (stGet s.stations s.playingIdx).id else ""
  let l := sortStationsList s.stations
  ensureVisible { s with stations := l,
                         selectedIdx := restoreIdx selId l s.selectedIdx,
                         playingIdx := restoreIdx playId l s.playingIdx }

/-- Function `saveFavorites()` (main.cpp 587-598): comma-joined ids of the favorites. -/
def saveFavorites (s : GState) : GState :=
  { s with prefsFavs := String.intercalate ("," : String) ((s.stations.filter (·.fav)).map (·.id)) }

/-- Function `toggleFavorite(idx)` (main.cpp 647-652). -/
def toggleFavorite (idx : Int) (s : GState) : GState :=
  if idx < 0 ∨ stationCount s ≤ idx then s
  else
    let st := stGet s.stations idx
    sortStations (saveFavorites { s with
      stations := s.stations.set idx.toNat { st with fav := !st.fav } })

/-- Function `cleanupAudio()` (main.cpp 1168-1173): destroy the session objects and
clear `aRunning`. -/
def cleanupAudio (s : GState) : GState :=
  { s with session := Option.none, aRunning := false }

/-- Environment of one `audioTask` loop iteration: whether `mp3->begin` would
succeed, whether `mp3->loop()` returns true, and the contents of the shared
slot pair `(aCmd, aTarget)` at each of the 21 reads the retry grace window
makes (20 loop-condition reads at 100 ms spacing, main.cpp 1215-1216, plus
the final re-check, main.cpp 1218). -/
structure AudioEnv where
  beginOk : Bool
  loopOk : Bool
  graceCmd : Nat → ACmd
  graceTgt : Nat → Int

/-- Index of the first of the 21 grace-window reads that sees a pending
command, if any (main.cpp 1215-1218). -/
def firstGraceCmd (obs : Nat → ACmd) : Option Nat :=
  (List.range 21).find? (fun i => obs i != ACmd.none)

/-- One iteration of the `audioTask` loop body (main.cpp 1176-1227).
If a command is pending it is consumed: any session is torn down, and a
`Play` with an in-range target (re)builds the session (main.cpp 1185-1204).
Otherwise, a running decoder whose `loop()` fails enters the grace window:
if every read sees an empty slot, `Play` for `playingIdx` is re-published
(main.cpp 1218-1221); if some read sees a command, the slot keeps what the
control context wrote, to be consumed by the next iteration. -/
def audioTaskStep (env : AudioEnv) (s : GState) : GState :=
  if s.aCmd ≠ ACmd.none then
    let cmd := s.aCmd
    let s1 := cleanupAudio { s with aCmd := ACmd.none }
    if cmd = ACmd.play then
      if 0 ≤ s1.aTarget ∧ s1.aTarget < stationCount s1 then
        if env.beginOk then
          { s1 with session := some s1.aTarget, aRunning := true,
                    playingIdx := s1.aTarget }
        else cleanupAudio s1
      else s1
    else s1
  else if s.session.isSome then
    if env.loopOk then s
    else
      let s2 := cleanupAudio s
      match firstGraceCmd env.graceCmd with
      | Option.none => { s2 with aCmd := ACmd.play, aTarget := s2.playingIdx }
      | some i => { s2 with aCmd := env.graceCmd i, aTarget := env.graceTgt i }
  else s

/-- Wrap an integer to the signed 16-bit range, as a C cast to `int16_t`
does on this target. -/
def toInt16 (x : Int) : Int := (x + 32768) % 65536 - 32768

/-- The downmix and gain of `ConsumeSample` (main.cpp 334-340): under
`aPaused`, silence with the gain not applied; otherwise the stereo average
(C `/ 2` truncates, `Int.tdiv`) followed by the Q6 fixed-point gain
(`>> 6` on a signed int is an arithmetic shift on this target, `Int.fdiv`
by 64), assigned back into an `int16_t`. -/
def monoOf (paused : Bool) (gain sl sr : Int) : Int :=
  if paused then 0
  else
    let m := toInt16 (Int.tdiv (sl + sr) 2)
    toInt16 (Int.fdiv (m * gain) 64)

/-- The state of `DirectI2SOutput` plus the telemetry globals
(main.cpp 141-155, 388-394): the pending output block `_buf[0.._bp)` as a
list, the blocks flushed to `i2s_write`, and the visualizer accumulators
and snapshots. -/
structure SinkState where
  buf : List Int
  flushed : List (List Int)
  peakAcc : Nat
  peakCnt : Nat
  binAcc : List Nat
  binIdx : Nat
  binCnt : Nat
  waveSub : Nat
  visBins : List Nat
  visPeak : Nat
  visWave : List Int
  visWaveW : Nat
deriving DecidableEq, Repr

/-- The reset sink/telemetry state: C zero-initialisation of the globals. -/
def sink0 : SinkState :=
  { buf := [], flushed := [], peakAcc := 0, peakCnt := 0,
    binAcc := List.replicate 16 0, binIdx := 0, binCnt := 0, waveSub := 0,
    visBins := List.replicate 16 0, visPeak := 0,
    visWave := List.replicate 120 0, visWaveW := 0 }

/-- Main.cpp 341-349: append the processed mono sample to the output block
(L and R slots) and advance the peak and bin accumulators. -/
def sampleStep (mono : Int) (s : SinkState) : SinkState :=
  { s with buf := s.buf ++ [mono, mono],
           peakAcc := s.peakAcc + mono.natAbs,
           peakCnt := s.peakCnt + 1,
           binAcc := s.binAcc.set s.binIdx (s.binAcc.getD s.binIdx 0 + mono.natAbs),
           binCnt := s.binCnt + 1 }

/-- Main.cpp 350-356: on a full 92-sample window publish the bin
(`min(255u, (acc / cnt) >> 5)`) and advance the bin cursor circularly. -/
def binEmit (s : SinkState) : SinkState :=
  if 92 ≤ s.binCnt then
    { s with
      visBins := s.visBins.set s.binIdx (min 255 (s.binAcc.getD s.binIdx 0 / s.binCnt / 32)),
      binAcc := s.binAcc.set s.binIdx 0,
      binCnt := 0,
      binIdx := (s.binIdx + 1) % 16 }
  else s

/-- Main.cpp 357-361: peak envelope emission every 735 samples. -/
def peakEmit (s : SinkState) : SinkState :=
  if 735 ≤ s.peakCnt then
    { s with visPeak := min 32767 (s.peakAcc / s.peakCnt), peakAcc := 0, peakCnt := 0 }
  else s

/-- Main.cpp 362-369: decimating waveform capture (`mono >> 8` on an
`int16_t` is an arithmetic shift, `Int.fdiv` by 256). -/
def waveStep (mono : Int) (s : SinkState) : SinkState :=
  let s1 := { s with waveSub := s.waveSub + 1 }
  if 11 ≤ s1.waveSub then
    { s1 with waveSub := 0,
              visWave := s1.visWave.set s1.visWaveW (Int.fdiv mono 256),
              visWaveW := (s1.visWaveW + 1) % 120 }
  else s1

/-- Main.cpp 371-375: flush the block to `i2s_write` once full
(`BUF_SZ` = 512 mono entries). -/
def flushStep (s : SinkState) : SinkState :=
  if 512 ≤ s.buf.length then { s with flushed := s.flushed ++ [s.buf], buf := [] }
  else s

/-- Method `DirectI2SOutput::ConsumeSample` (main.cpp 331-377), as a function of the
shared inputs it reads (`aCmd`, `aPaused`, the gain) and the sink state. -/
def consumeSample (cmd : ACmd) (paused : Bool) (gain sl sr : Int) (s : SinkState) :
    Bool × SinkState :=
  if cmd ≠ ACmd.none then (false, s)
  else
    let mono := monoOf paused gain sl sr
    (true, flushStep (waveStep mono (peakEmit (binEmit (sampleStep mono s)))))

/-- Iterated `ConsumeSample` over a list of (paused, left, right) inputs with
the command slot empty throughout. -/
def consumeRun (gain : Int) (inputs : List (Bool × Int × Int)) (s : SinkState) : SinkState :=
  inputs.foldl (fun st p => (consumeSample ACmd.none p.1 gain p.2.1 p.2.2 st).2) s

/-- The waveform ring write of main.cpp 366-368 (`visWave[visWaveW] = v;
visWaveW = (visWaveW + 1) % VIS_WAVE_N;`), instrumented with two history
observers: the set of ring indices written so far and the index of the most
recent write. -/
structure WaveTrace where
  visWave : List Int
  visWaveW : Nat
  written : Finset Nat
  lastW : Option Nat
deriving DecidableEq

/-- One decimated append into the waveform ring (main.cpp 366-368). -/
def waveAppend (v : Int) (t : WaveTrace) : WaveTrace :=
  { visWave := t.visWave.set t.visWaveW v,
    visWaveW := (t.visWaveW + 1) % 120,
    written := insert t.visWaveW t.written,
    lastW := some t.visWaveW }

/-- The empty waveform ring with cursor 0 (zero-initialised globals). -/
def waveTrace0 : WaveTrace :=
  { visWave := List.replicate 120 0, visWaveW := 0,
    written := ∅, lastW := Option.none }

/-- A run of decimated appends from the empty ring. -/
def waveRun (l : List Int) : WaveTrace :=
  l.foldl (fun t v => waveAppend v t) waveTrace0

/-- A demo station (no favorite flag). -/
def stA : Station :=
  { id := "groovesalad", title := "Groove Salad", desc := "", genre := "ambient",
    imageUrl := "", color := 0, listeners := 100, fav := false }

/-- A demo station flagged as favorite. -/
def stB : Station :=
  { id := "dronezone", title := "Drone Zone", desc := "", genre := "ambient",
    imageUrl := "", color := 0, listeners := 50, fav := true }

/-- A demo station whose id is the empty string. -/
def stE : Station :=
  { id := "", title := "Empty", desc := "", genre := "", imageUrl := "",
    color := 0, listeners := 0, fav := false }

/-- A concrete browser-screen state with two stations and nothing playing. -/
def gDemo : GState :=
  { stations := [stA, stB], selectedIdx := 0, scrollOffset := 0, playingIdx := -1,
    appState := AppSt.browser, nowTrack := "", aRunning := false, aPaused := false,
    aCmd := ACmd.none, aTarget := -1, session := Option.none, volume := 100,
    tLastNP := 0, logoForIdx := -1, logoValid := false, logoDataLen := 0,
    prefsLast := "", prefsFavs := "", scrTitle := "", scrGenre := "", scrSong := "" }

/-- A concrete state streaming station 1. -/
def gPlay : GState :=
  { gDemo with playingIdx := 1, selectedIdx := 1, aRunning := true,
               session := some 1, appState := AppSt.playing }

/-- A concrete state whose selected station has an empty id. -/
def gEmptyId : GState := { gDemo with stations := [stE, stB] }

/-- A quiet audio environment: the decoder keeps running, no command arrives. -/
def envQuiet : AudioEnv :=
  { beginOk := true, loopOk := true, graceCmd := fun _ => ACmd.none,
    graceTgt := fun _ => 0 }

/-- An environment where the decoder loop fails and no command ever arrives. -/
def envDrop : AudioEnv :=
  { beginOk := true, loopOk := false, graceCmd := fun _ => ACmd.none,
    graceTgt := fun _ => 0 }

/-! ## Projection helper lemmas -/

@[simp] theorem saveLastStation_aCmd (s : GState) :
    (saveLastStation s).aCmd = s.aCmd := by
  unfold saveLastStation; split <;> rfl

@[simp] theorem saveLastStation_aTarget (s : GState) :
    (saveLastStation s).aTarget = s.aTarget := by
  unfold saveLastStation; split <;> rfl

@[simp] theorem saveLastStation_playingIdx (s : GState) :
    (saveLastStation s).playingIdx = s.playingIdx := by
  unfold saveLastStation; split <;> rfl

@[simp] theorem saveLastStation_selectedIdx (s : GState) :
    (saveLastStation s).selectedIdx = s.selectedIdx := by
  unfold saveLastStation; split <;> rfl

@[simp] theorem saveLastStation_stations (s : GState) :
    (saveLastStation s).stations = s.stations := by
  unfold saveLastStation; split <;> rfl

@[simp] theorem saveLastStation_session (s : GState) :
    (saveLastStation s).session = s.session := by
  unfold saveLastStation; split <;> rfl

@[simp] theorem saveLastStation_aRunning (s : GState) :
    (saveLastStation s).aRunning = s.aRunning := by
  unfold saveLastStation; split <;> rfl

@[simp] theorem saveLastStation_aPaused (s : GState) :
    (saveLastStation s).aPaused = s.aPaused := by
  unfold saveLastStation; split <;> rfl

/-! ## C3: ConsumeSample refusal signal -/

/-- C3: `ConsumeSample` returns false exactly when a command is pending in the
slot; in the refusal case the whole sink state (the output block, the flushed
blocks and every telemetry accumulator and snapshot) is untouched, and with an
empty slot it always returns true. -/
theorem consumeSample_refusal (cmd : ACmd) (paused : Bool) (gain sl sr : Int)
    (s : SinkState) :
    ((consumeSample cmd paused gain sl sr s).1 = false ↔ cmd ≠ ACmd.none)
    ∧ (cmd ≠ ACmd.none → (consumeSample cmd paused gain sl sr s).2 = s)
    ∧ (cmd = ACmd.none → (consumeSample cmd paused gain sl sr s).1 = true) := by
  by_cases h : cmd = ACmd.none <;> simp [consumeSample, h]

/-- Closed instance of `consumeSample_refusal`. -/
theorem consumeSample_refusal_witness :
    (consumeSample ACmd.stop false 64 5 7 sink0).2 = sink0
    ∧ (consumeSample ACmd.stop false 64 5 7 sink0).1 = false
    ∧ (consumeSample ACmd.none false 64 5 7 sink0).1 = true := by
  have h1 := consumeSample_refusal ACmd.stop false 64 5 7 sink0
  have h2 := consumeSample_refusal ACmd.none false 64 5 7 sink0
  exact ⟨h1.2.1 (by decide), h1.1.mpr (by decide), h2.2.2 rfl⟩

/-! ## C5: pause substitutes silence, telemetry still advances -/

theorem monoOf_zero_unpaused (gain : Int) : monoOf false gain 0 0 = 0 := by
  simp [monoOf, toInt16]

/-- C5: a paused `ConsumeSample` call writes the silent sample 0 (the gain is
not applied on that path), and it produces exactly the state an unpaused call
on the all-zero input sample would: every telemetry accumulator and counter
advances identically. -/
theorem consumeSample_paused (gain sl sr : Int) (s : SinkState) :
    monoOf true gain sl sr = 0
    ∧ consumeSample ACmd.none true gain sl sr s
        = consumeSample ACmd.none false gain 0 0 s := by
  refine ⟨rfl, ?_⟩
  simp only [consumeSample, monoOf_zero_unpaused]
  rfl

/-! ## C4 (corrected): stopPlaying does not clear aRunning itself -/

/-- C4 counterexample: immediately after `stopPlaying` returns, `aRunning` is
still true when it was true before — the control-context call does not clear
it; only the audio task's `cleanupAudio` does. -/
theorem stopPlaying_counterexample :
    ({ gDemo with aRunning := true } : GState).aRunning = true
    ∧ (stopPlaying { gDemo with aRunning := true }).aRunning = true := by
  exact ⟨rfl, rfl⟩

/-- C4 (amended): `stopPlaying` publishes Stop and clears `aPaused`, leaving
`aRunning` unchanged; `aRunning` becomes false only once the audio task
consumes the command (`cleanupAudio`). -/
theorem stopPlaying_spec (s : GState) (env : AudioEnv) :
    (stopPlaying s).aCmd = ACmd.stop
    ∧ (stopPlaying s).aPaused = false
    ∧ (stopPlaying s).aRunning = s.aRunning
    ∧ (audioTaskStep env (stopPlaying s)).aRunning = false
    ∧ (audioTaskStep env (stopPlaying s)).session = Option.none
    ∧ (audioTaskStep env (stopPlaying s)).aCmd = ACmd.none := by
  refine ⟨rfl, rfl, rfl, ?_, ?_, ?_⟩ <;>
    simp [audioTaskStep, stopPlaying, cleanupAudio]

/-! ## C2 (corrected): startPlaying is not range-checked -/

/-- C2 counterexample: with 2 stations, `startPlaying 5` is not a no-op — it
publishes Play into the slot and moves `playingIdx` and `selectedIdx` to 5. -/
theorem startPlaying_oob_counterexample :
    stationCount gDemo = 2
    ∧ (startPlaying 5 gDemo).aCmd = ACmd.play
    ∧ (startPlaying 5 gDemo).aTarget = 5
    ∧ gDemo.playingIdx = -1 ∧ (startPlaying 5 gDemo).playingIdx = 5
    ∧ gDemo.selectedIdx = 0 ∧ (startPlaying 5 gDemo).selectedIdx = 5 := by
  decide

/-- C2 (amended): `startPlaying(idx)` performs no range check: for every
out-of-range index it still publishes Play(idx) into the slot and sets
`playingIdx = selectedIdx = idx`; the rejection happens in the audio task,
which consumes such a command without building a session, leaving `aRunning`
false and the slot empty. -/
theorem audioTaskStep_play_oob (env : AudioEnv) (t : GState)
    (hc : t.aCmd = ACmd.play)
    (hg : t.aTarget < 0 ∨ stationCount t ≤ t.aTarget) :
    audioTaskStep env t = cleanupAudio { t with aCmd := ACmd.none } := by
  simp only [stationCount] at hg
  have hng : ¬(0 ≤ t.aTarget ∧ t.aTarget < (t.stations.length : Int)) := by omega
  simp [audioTaskStep, hc, cleanupAudio, stationCount, hng]

theorem startPlaying_oob (s : GState) (idx : Int) (env : AudioEnv)
    (h : idx < 0 ∨ stationCount s ≤ idx) :
    (startPlaying idx s).aCmd = ACmd.play
    ∧ (startPlaying idx s).aTarget = idx
    ∧ (startPlaying idx s).playingIdx = idx
    ∧ (startPlaying idx s).selectedIdx = idx
    ∧ (audioTaskStep env (startPlaying idx s)).session = Option.none
    ∧ (audioTaskStep env (startPlaying idx s)).aRunning = false
    ∧ (audioTaskStep env (startPlaying idx s)).aCmd = ACmd.none := by
  have htarget : (startPlaying idx s).aTarget = idx := by simp [startPlaying]
  have hstations : (startPlaying idx s).stations = s.stations := by simp [startPlaying]
  have hg : (startPlaying idx s).aTarget < 0
      ∨ stationCount (startPlaying idx s) ≤ (startPlaying idx s).aTarget := by
    rw [htarget]
    unfold stationCount
    rw [hstations]
    simpa [stationCount] using h
  have hx := audioTaskStep_play_oob env (startPlaying idx s) (by simp [startPlaying]) hg
  refine ⟨by simp [startPlaying], htarget, by simp [startPlaying],
          by simp [startPlaying], ?_, ?_, ?_⟩ <;> rw [hx] <;> rfl

/-- Closed instance of `startPlaying_oob`. -/
theorem startPlaying_oob_witness :
    (startPlaying 5 gDemo).aCmd = ACmd.play
    ∧ (audioTaskStep envQuiet (startPlaying 5 gDemo)).session = Option.none
    ∧ (audioTaskStep envQuiet (startPlaying 5 gDemo)).aRunning = false := by
  have h := startPlaying_oob gDemo 5 envQuiet (Or.inr (by decide))
  exact ⟨h.1, h.2.2.2.2.1, h.2.2.2.2.2.1⟩

/-! ## C9: skip-next / skip-prev wrap circularly -/

/-- C9: with a non-empty directory and a valid playing index, skip-next
requests Play of `(playingIdx + 1) mod stationCount` and skip-prev requests
Play of `(playingIdx - 1) mod stationCount` (mathematical mod); in particular
skip-next from the last index wraps to 0 and skip-prev from 0 wraps to the
last index. -/
theorem skip_wrap (s : GState) (h0 : 0 ≤ s.playingIdx)
    (h1 : s.playingIdx < stationCount s) :
    ((handleSkipNext s).aCmd = ACmd.play
      ∧ (handleSkipNext s).aTarget = (s.playingIdx + 1) % stationCount s
      ∧ (handleSkipNext s).playingIdx = (s.playingIdx + 1) % stationCount s
      ∧ (s.playingIdx = stationCount s - 1 → (handleSkipNext s).aTarget = 0))
    ∧ ((handleSkipPrev s).aCmd = ACmd.play
      ∧ (handleSkipPrev s).aTarget = (s.playingIdx - 1) % stationCount s
      ∧ (handleSkipPrev s).playingIdx = (s.playingIdx - 1) % stationCount s
      ∧ (s.playingIdx = 0 → (handleSkipPrev s).aTarget = stationCount s - 1)) := by
  simp only [stationCount] at h0 h1 ⊢
  have hnext : Int.tmod (s.playingIdx + 1) (s.stations.length : Int)
      = (s.playingIdx + 1) % (s.stations.length : Int) :=
    Int.tmod_eq_emod (by omega) (by omega)
  have hprev : Int.tmod (s.playingIdx - 1 + (s.stations.length : Int)) (s.stations.length : Int)
      = (s.playingIdx - 1) % (s.stations.length : Int) := by
    rw [Int.tmod_eq_emod (by omega) (by omega), Int.add_emod_self]
  refine ⟨⟨?_, ?_, ?_, ?_⟩, ?_, ?_, ?_, ?_⟩
  · simp [handleSkipNext, startPlaying]
  · simp [handleSkipNext, startPlaying, freeLogo, stationCount, hnext]
  · simp [handleSkipNext, startPlaying, freeLogo, stationCount, hnext]
  · intro hlast
    simp [handleSkipNext, startPlaying, freeLogo, stationCount, hnext]
    rw [hlast]
    simp
  · simp [handleSkipPrev, startPlaying]
  · simp [handleSkipPrev, startPlaying, freeLogo, stationCount, hprev]
  · simp [handleSkipPrev, startPlaying, freeLogo, stationCount, hprev]
  · intro hzero
    simp [handleSkipPrev, startPlaying, freeLogo, stationCount, hprev]
    rw [hzero]
    have hm : ((0 : Int) - 1 + (s.stations.length : Int)) % (s.stations.length : Int)
        = (s.stations.length : Int) - 1 := by
      rw [Int.emod_eq_of_lt (by omega) (by omega)]
      omega
    calc ((0 : Int) - 1) % (s.stations.length : Int)
        = ((0 : Int) - 1 + (s.stations.length : Int)) % (s.stations.length : Int) :=
          (Int.add_emod_self).symm
      _ = (s.stations.length : Int) - 1 := hm

/-- Closed instance of `skip_wrap` at the wrap points (2 stations). -/
theorem skip_wrap_witness :
    (handleSkipNext gPlay).aTarget = 0
    ∧ (handleSkipPrev { gPlay with playingIdx := 0 }).aTarget = 1 := by
  have h1 := skip_wrap gPlay (by decide) (by decide)
  have h2 := skip_wrap { gPlay with playingIdx := 0 } (by decide) (by decide)
  exact ⟨h1.1.2.2.2 (by decide), h2.2.2.2.2 rfl⟩

/-! ## C6: pause toggle touches only the paused flag -/

/-- C6: the space-key pause toggle only flips `aPaused`: the command slot,
the target, `playingIdx` and the session objects are unchanged (in the
browser screen the space branch is the same flip whenever something is
playing), and a subsequent audio-task iteration with an empty slot and a
healthy decoder leaves the session untouched — no reconnect. -/
theorem pauseToggle_frame (s : GState) (j : Int) (env : AudioEnv) :
    ((pauseToggle s).aPaused = !s.aPaused
      ∧ (pauseToggle s).aCmd = s.aCmd
      ∧ (pauseToggle s).aTarget = s.aTarget
      ∧ (pauseToggle s).playingIdx = s.playingIdx
      ∧ (pauseToggle s).selectedIdx = s.selectedIdx
      ∧ (pauseToggle s).session = s.session
      ∧ (pauseToggle s).stations = s.stations
      ∧ (pauseToggle s).aRunning = s.aRunning)
    ∧ (0 ≤ s.playingIdx → handleBrowserSpace s = pauseToggle s)
    ∧ (s.aCmd = ACmd.none → s.session = some j → env.loopOk = true →
        audioTaskStep env (pauseToggle s) = pauseToggle s) := by
  refine ⟨⟨rfl, rfl, rfl, rfl, rfl, rfl, rfl, rfl⟩, ?_, ?_⟩
  · intro h
    simp [handleBrowserSpace, pauseToggle, h]
  · intro hc hs hl
    simp [audioTaskStep, pauseToggle, hc, hs, hl]

/-- Closed instance of `pauseToggle_frame`. -/
theorem pauseToggle_frame_witness :
    handleBrowserSpace gPlay = pauseToggle gPlay
    ∧ audioTaskStep envQuiet (pauseToggle gPlay) = pauseToggle gPlay
    ∧ (pauseToggle gPlay).session = gPlay.session := by
  have h := pauseToggle_frame gPlay 1 envQuiet
  exact ⟨h.2.1 (by decide), h.2.2 rfl rfl rfl, h.1.2.2.2.2.2.1⟩

/-! ## C1: mid-stream failure, grace window, bounded auto-retry -/

theorem find?_range_eq_none {p : Nat → Bool} {n : Nat}
    (h : ∀ i, i < n → p i = false) :
    (List.range n).find? p = Option.none := by
  apply List.find?_eq_none.mpr
  intro x hx
  simp only [List.mem_range] at hx
  simp [h x hx]

theorem find?_range_eq_some {p : Nat → Bool} {i : Nat} :
    ∀ {n : Nat}, i < n → p i = true → (∀ k, k < i → p k = false) →
      (List.range n).find? p = some i := by
  intro n
  induction n with
  | zero => omega
  | succ m ih =>
    intro hi hp hmin
    rw [List.range_succ, List.find?_append]
    by_cases him : i < m
    · rw [ih him hp hmin]
      rfl
    · have hieq : i = m := by omega
      have hnone : (List.range m).find? p = Option.none :=
        find?_range_eq_none (fun k hk => hmin k (by omega))
      rw [hnone]
      subst hieq
      simp [List.find?, hp]

/-- C1: after a mid-stream failure (session alive, `mp3->loop()` false), if
all 21 grace-window reads of the slot see None, the audio task re-publishes
Play for the index that was playing; if some read sees a command, the
auto-retry is not issued — the slot keeps the command the control context
wrote, to be honored by the next loop iteration. -/
theorem midstream_retry (env : AudioEnv) (s : GState) (j : Int)
    (hc : s.aCmd = ACmd.none) (hs : s.session = some j) (hp : s.playingIdx = j)
    (hl : env.loopOk = false) :
    ((∀ i, i < 21 → env.graceCmd i = ACmd.none) →
       (audioTaskStep env s).aCmd = ACmd.play
       ∧ (audioTaskStep env s).aTarget = j
       ∧ (audioTaskStep env s).session = Option.none
       ∧ (audioTaskStep env s).aRunning = false)
    ∧ (∀ i, i < 21 → env.graceCmd i ≠ ACmd.none →
        (∀ k, k < i → env.graceCmd k = ACmd.none) →
       (audioTaskStep env s).aCmd = env.graceCmd i
       ∧ (audioTaskStep env s).aTarget = env.graceTgt i
       ∧ (audioTaskStep env s).session = Option.none
       ∧ (audioTaskStep env s).aRunning = false) := by
  constructor
  · intro hall
    have hfc : firstGraceCmd env.graceCmd = Option.none := by
      unfold firstGraceCmd
      exact find?_range_eq_none (fun i hi => by simp [hall i hi])
    simp [audioTaskStep, hc, hs, hl, hfc, cleanupAudio, hp]
  · intro i hi hne hmin
    have hfc : firstGraceCmd env.graceCmd = some i := by
      unfold firstGraceCmd
      exact find?_range_eq_some hi (by simpa using hne)
        (fun k hk => by simp [hmin k hk])
    simp [audioTaskStep, hc, hs, hl, hfc, cleanupAudio]

/-- Closed instance of `midstream_retry`: the quiet drop environment leads to
a republished Play for the station that was streaming. -/
theorem midstream_retry_witness :
    (audioTaskStep envDrop gPlay).aCmd = ACmd.play
    ∧ (audioTaskStep envDrop gPlay).aTarget = 1
    ∧ (audioTaskStep envDrop gPlay).session = Option.none := by
  have h := midstream_retry envDrop gPlay 1 rfl rfl rfl rfl
  have h2 := h.1 (fun i _ => rfl)
  exact ⟨h2.1, h2.2.1, h2.2.2.1⟩

/-! ## C7: bin accumulator arithmetic -/

@[simp] theorem peakEmit_binCnt (s : SinkState) : (peakEmit s).binCnt = s.binCnt := by
  unfold peakEmit; split <;> rfl

@[simp] theorem peakEmit_binIdx (s : SinkState) : (peakEmit s).binIdx = s.binIdx := by
  unfold peakEmit; split <;> rfl

@[simp] theorem peakEmit_visBins (s : SinkState) : (peakEmit s).visBins = s.visBins := by
  unfold peakEmit; split <;> rfl

@[simp] theorem waveStep_binCnt (m : Int) (s : SinkState) :
    (waveStep m s).binCnt = s.binCnt := by
  unfold waveStep; dsimp only; split <;> rfl

@[simp] theorem waveStep_binIdx (m : Int) (s : SinkState) :
    (waveStep m s).binIdx = s.binIdx := by
  unfold waveStep; dsimp only; split <;> rfl

@[simp] theorem waveStep_visBins (m : Int) (s : SinkState) :
    (waveStep m s).visBins = s.visBins := by
  unfold waveStep; dsimp only; split <;> rfl

@[simp] theorem flushStep_binCnt (s : SinkState) : (flushStep s).binCnt = s.binCnt := by
  unfold flushStep; split <;> rfl

@[simp] theorem flushStep_binIdx (s : SinkState) : (flushStep s).binIdx = s.binIdx := by
  unfold flushStep; split <;> rfl

@[simp] theorem flushStep_visBins (s : SinkState) : (flushStep s).visBins = s.visBins := by
  unfold flushStep; split <;> rfl

/-- One `ConsumeSample` call advances the bin counter and the bin cursor
exactly as the source's lines 347-355 state. -/
theorem consume_step_bins (paused : Bool) (gain sl sr : Int) (s : SinkState) :
    (consumeSample ACmd.none paused gain sl sr s).2.binCnt
      = (if 92 ≤ s.binCnt + 1 then 0 else s.binCnt + 1)
    ∧ (consumeSample ACmd.none paused gain sl sr s).2.binIdx
      = (if 92 ≤ s.binCnt + 1 then (s.binIdx + 1) % 16 else s.binIdx) := by
  simp only [consumeSample, ne_eq, not_true_eq_false, if_false, reduceCtorEq,
    not_false_eq_true, if_true]
  constructor <;>
    (simp only [flushStep_binCnt, flushStep_binIdx, waveStep_binCnt, waveStep_binIdx,
       peakEmit_binCnt, peakEmit_binIdx]
     unfold binEmit sampleStep
     dsimp only
     split <;> rfl)

theorem consumeRun_binInv (gain : Int) (inputs : List (Bool × Int × Int)) :
    ∀ (s : SinkState) (n : Nat),
      s.binCnt = n % 92 → s.binIdx = (n / 92) % 16 →
      (consumeRun gain inputs s).binCnt = (n + inputs.length) % 92
      ∧ (consumeRun gain inputs s).binIdx = ((n + inputs.length) / 92) % 16 := by
  induction inputs with
  | nil =>
    intro s n hc hi
    simpa [consumeRun] using ⟨hc, hi⟩
  | cons p rest ih =>
    intro s n hc hi
    have hstep := consume_step_bins p.1 gain p.2.1 p.2.2 s
    have h1 : (consumeSample ACmd.none p.1 gain p.2.1 p.2.2 s).2.binCnt = (n + 1) % 92 := by
      rw [hstep.1, hc]
      split <;> omega
    have h2 : (consumeSample ACmd.none p.1 gain p.2.1 p.2.2 s).2.binIdx
        = ((n + 1) / 92) % 16 := by
      rw [hstep.2, hc, hi]
      split <;> omega
    have hrec := ih ((consumeSample ACmd.none p.1 gain p.2.1 p.2.2 s).2) (n + 1) h1 h2
    have hfold : consumeRun gain (p :: rest) s
        = consumeRun gain rest ((consumeSample ACmd.none p.1 gain p.2.1 p.2.2 s).2) := rfl
    rw [hfold]
    have harith : n + 1 + rest.length = n + (p :: rest).length := by
      simp
      omega
    rw [harith] at hrec
    exact hrec

/-- C7: starting from the reset accumulator state, after N consumed samples
the active bin index is `(N / 92) % 16` (and the in-window count is
`N % 92`); and every call that completes a 92-sample window publishes
`min 255 ((windowSum / 92) / 32)` — i.e. `clamp((windowSum / W) >> 5, 0,
255)` — into the active bin, where `windowSum` is the sum of the 92 absolute
mono amplitudes of that window. -/
theorem bins_spec (gain : Int) (inputs : List (Bool × Int × Int)) :
    ((consumeRun gain inputs sink0).binIdx = (inputs.length / 92) % 16
      ∧ (consumeRun gain inputs sink0).binCnt = inputs.length % 92)
    ∧ (∀ (paused : Bool) (g sl sr : Int) (s : SinkState),
        s.binCnt = 91 → s.binIdx < s.binAcc.length → s.binIdx < s.visBins.length →
        (consumeSample ACmd.none paused g sl sr s).2.visBins.getD s.binIdx 0
          = min 255 ((s.binAcc.getD s.binIdx 0 + (monoOf paused g sl sr).natAbs) / 92 / 32)) := by
  constructor
  · have h := consumeRun_binInv gain inputs sink0 0 rfl rfl
    exact ⟨by simpa using h.2, by simpa using h.1⟩
  · intro paused g sl sr s hcnt hacc hbins
    simp only [consumeSample, ne_eq, not_true_eq_false, if_false, reduceCtorEq,
      not_false_eq_true, if_true, flushStep_visBins, waveStep_visBins,
      peakEmit_visBins]
    unfold binEmit sampleStep
    dsimp only
    rw [if_pos (by omega)]
    dsimp only
    rw [hcnt]
    have hacc' : (s.binAcc.set s.binIdx (s.binAcc.getD s.binIdx 0
        + (monoOf paused g sl sr).natAbs)).getD s.binIdx 0
        = s.binAcc.getD s.binIdx 0 + (monoOf paused g sl sr).natAbs := by
      rw [List.getD_eq_getElem?_getD, List.getElem?_set_self hacc]
      rfl
    rw [hacc']
    rw [List.getD_eq_getElem?_getD, List.getElem?_set_self hbins]
    rfl

/-- Closed instance of `bins_spec`: a window-completing call publishes the
clamped mean into the active bin. -/
theorem bins_spec_witness :
    (consumeSample ACmd.none false 64 1000 1000
        { sink0 with binCnt := 91, binAcc := List.replicate 16 400000 }).2.visBins.getD 0 0
      = min 255 ((400000 + (monoOf false 64 1000 1000).natAbs) / 92 / 32) := by
  have h := (bins_spec 64 []).2 false 64 1000 1000
    { sink0 with binCnt := 91, binAcc := List.replicate 16 400000 }
    rfl (by simp [sink0]) (by simp [sink0])
  simpa [sink0] using h

/-! ## C8: waveform ring buffer -/

theorem waveRun_aux (l : List Int) :
    ∀ (t : WaveTrace) (n : Nat),
      t.visWaveW = n % 120 → t.written = Finset.range (min n 120) →
      (l.foldl (fun t v => waveAppend v t) t).visWaveW = (n + l.length) % 120
      ∧ (l.foldl (fun t v => waveAppend v t) t).written
          = Finset.range (min (n + l.length) 120)
      ∧ (l ≠ [] → (l.foldl (fun t v => waveAppend v t) t).lastW
          = some ((n + l.length - 1) % 120)) := by
  induction l with
  | nil =>
    intro t n h1 h2
    exact ⟨by simpa using h1, by simpa using h2, fun h => absurd rfl h⟩
  | cons v rest ih =>
    intro t n h1 h2
    have hw : (waveAppend v t).visWaveW = (n + 1) % 120 := by
      simp only [waveAppend, h1]
      omega
    have hset : (waveAppend v t).written = Finset.range (min (n + 1) 120) := by
      simp only [waveAppend, h1, h2]
      by_cases hn : n < 120
      · rw [Nat.mod_eq_of_lt hn, Nat.min_eq_left (Nat.le_of_lt hn),
            Nat.min_eq_left (by omega)]
        exact (Finset.range_succ).symm
      · rw [Nat.min_eq_right (by omega), Nat.min_eq_right (by omega)]
        exact Finset.insert_eq_self.mpr
          (Finset.mem_range.mpr (Nat.mod_lt _ (by omega)))
    have hrec := ih (waveAppend v t) (n + 1) hw hset
    have hfold : (v :: rest).foldl (fun t v => waveAppend v t) t
        = rest.foldl (fun t v => waveAppend v t) (waveAppend v t) := rfl
    rw [hfold]
    refine ⟨by simpa [Nat.add_assoc, Nat.add_comm 1 rest.length] using hrec.1,
            by simpa [Nat.add_assoc, Nat.add_comm 1 rest.length] using hrec.2.1, ?_⟩
    intro _
    by_cases hrest : rest = []
    · subst hrest
      simp [waveAppend, h1]
    · have := hrec.2.2 hrest
      rw [this]
      congr 1
      simp only [List.length_cons]
      omega

/-- C8 (amended): after M ≥ 1 decimated samples have been appended to the
empty 120-entry waveform ring, the cursor is `M mod 120`, exactly
`min(M, 120)` distinct ring slots have been written, and the most recent
write sits at index `(M - 1) mod 120` — which equals `(M mod 120) - 1` only
when `M mod 120 ≥ 1` and wraps to 119 when 120 divides M. -/
theorem waveRun_spec (l : List Int) (h : l ≠ []) :
    (waveRun l).visWaveW = l.length % 120
    ∧ (waveRun l).written.card = min l.length 120
    ∧ (waveRun l).lastW = some ((l.length - 1) % 120) := by
  have haux := waveRun_aux l waveTrace0 0 rfl (by simp [waveTrace0])
  refine ⟨by simpa using haux.1, ?_, by simpa using haux.2.2 h⟩
  have h2 := haux.2.1
  rw [Nat.zero_add] at h2
  rw [waveRun, h2, Finset.card_range]

/-- Closed instance of `waveRun_spec`. -/
theorem waveRun_spec_witness :
    (waveRun [5]).visWaveW = 1 ∧ (waveRun [5]).written.card = 1
    ∧ (waveRun [5]).lastW = some 0 := by
  have h := waveRun_spec [5] (by simp)
  simpa using h

/-- C8 counterexample: after exactly M = 120 appends the most recent write
sits at ring index 119, whereas the claim's formula `(M mod L) - 1` yields
`-1`, which is not an index of the buffer at all. -/
theorem waveRun_counterexample :
    (waveRun (List.replicate 120 0)).lastW = some 119
    ∧ (List.replicate 120 (0 : Int)).length = 120
    ∧ ((120 : Int) % 120) - 1 = -1
    ∧ ((-1 : Int) ≠ (119 : Int)) := by
  have haux := waveRun_aux (List.replicate 120 0) waveTrace0 0 rfl (by simp [waveTrace0])
  have hlast := haux.2.2 (by simp)
  refine ⟨?_, by simp, by decide, by decide⟩
  rw [waveRun] at *
  simpa using hlast

/-! ## C10: sortStations is a stable favorites-first partition that
re-targets the selection and playing indices by station id -/

theorem favLE_trans (a b c : Station) (hab : favLE a b = true)
    (hbc : favLE b c = true) : favLE a c = true := by
  simp only [favLE, Bool.or_eq_true, Bool.not_eq_true'] at *
  rcases hab with h | h
  · exact Or.inl h
  · rcases hbc with h2 | h2
    · exact absurd h2 (by simp [h])
    · exact Or.inr h2

theorem favLE_total (a b : Station) : favLE a b || favLE b a := by
  cases ha : a.fav <;> cases hb : b.fav <;> simp [favLE, ha, hb]

theorem string_length_pos {s : String} (h : s ≠ "") : 0 < s.length := by
  cases s with
  | mk data =>
    cases data with
    | nil => exact absurd rfl h
    | cons c cs => simp

/-- A list sorted under `favLE` is its favorites followed by its
non-favorites. -/
theorem pairwise_favLE_partition :
    ∀ (l : List Station), List.Pairwise (fun a b => favLE a b = true) l →
      l = l.filter (·.fav) ++ l.filter (fun t => !t.fav) := by
  intro l
  induction l with
  | nil => intro _; rfl
  | cons a t ih =>
    intro hp
    rcases List.pairwise_cons.mp hp with ⟨hrel, htail⟩
    by_cases hf : a.fav
    · rw [List.filter_cons_of_pos (by simpa using hf),
          List.filter_cons_of_neg (by simpa using hf), List.cons_append,
          ← ih htail]
    · have hf' : a.fav = false := by simpa using hf
      have hall : ∀ y ∈ t, y.fav = false := by
        intro y hy
        have h2 := hrel y hy
        simpa [favLE, hf', Bool.not_eq_true'] using h2
      rw [List.filter_cons_of_neg (by simp [hf']),
          List.filter_cons_of_pos (by simp [hf'])]
      have h1 : t.filter (·.fav) = [] :=
        List.filter_eq_nil_iff.mpr (fun y hy => by simp [hall y hy])
      have h2 : t.filter (fun t => !t.fav) = t :=
        List.filter_eq_self.mpr (fun y hy => by simp [hall y hy])
      rw [h1, h2]
      rfl

/-- The `std::stable_sort` of `sortStations` computes exactly the stable
favorites-first partition: favorites in their original order, then the
others in their original order. -/
theorem sortStationsList_eq (l : List Station) :
    sortStationsList l = l.filter (·.fav) ++ l.filter (fun t => !t.fav) := by
  have hperm : List.Perm (sortStationsList l) l := List.mergeSort_perm l favLE
  have hsorted : List.Pairwise (fun a b => favLE a b = true) (sortStationsList l) :=
    List.sorted_mergeSort favLE_trans favLE_total l
  have hsubf : List.Sublist (l.filter (·.fav)) (sortStationsList l) := by
    apply List.sublist_mergeSort favLE_trans favLE_total ?_ (List.filter_sublist l)
    exact List.pairwise_of_forall_mem_list (fun a ha b hb => by
      have ha2 := (List.mem_filter.mp ha).2
      simp only [favLE, Bool.or_eq_true]
      exact Or.inl (by simpa using ha2))
  have hsubn : List.Sublist (l.filter (fun t => !t.fav)) (sortStationsList l) := by
    apply List.sublist_mergeSort favLE_trans favLE_total ?_ (List.filter_sublist l)
    exact List.pairwise_of_forall_mem_list (fun a ha b hb => by
      have hb2 := (List.mem_filter.mp hb).2
      simp only [favLE, Bool.or_eq_true]
      exact Or.inr (by simpa using hb2))
  have hff : (sortStationsList l).filter (·.fav) = l.filter (·.fav) := by
    have hstep := hsubf.filter (·.fav)
    rw [List.filter_eq_self.mpr (fun a ha => (List.mem_filter.mp ha).2)] at hstep
    have hlen : ((sortStationsList l).filter (·.fav)).length
        = (l.filter (·.fav)).length := (hperm.filter _).length_eq
    exact (hstep.eq_of_length hlen.symm).symm
  have hnn : (sortStationsList l).filter (fun t => !t.fav)
      = l.filter (fun t => !t.fav) := by
    have hstep := hsubn.filter (fun t => !t.fav)
    rw [List.filter_eq_self.mpr (fun a ha => (List.mem_filter.mp ha).2)] at hstep
    have hlen : ((sortStationsList l).filter (fun t => !t.fav)).length
        = (l.filter (fun t => !t.fav)).length := (hperm.filter _).length_eq
    exact (hstep.eq_of_length hlen.symm).symm
  calc sortStationsList l
      = (sortStationsList l).filter (·.fav)
          ++ (sortStationsList l).filter (fun t => !t.fav) :=
        pairwise_favLE_partition _ hsorted
    _ = l.filter (·.fav) ++ l.filter (fun t => !t.fav) := by rw [hff, hnn]

theorem restoreIdxAux_succ (remId : String) (l : List Station) (m : Nat) (old : Int) :
    restoreIdxAux remId l (m + 1) old
      = (if 0 < remId.length ∧ (stGet l (m : Int)).id = remId then (m : Int)
         else restoreIdxAux remId l m old) := by
  unfold restoreIdxAux
  rw [List.range_succ, List.foldl_append, List.foldl_cons, List.foldl_nil]

theorem restoreIdxAux_spec (remId : String) (l : List Station) :
    ∀ (n : Nat), n ≤ l.length → ∀ (old : Int),
      0 < remId.length →
      (∃ i, i < n ∧ (stGet l (i : Int)).id = remId) →
      0 ≤ restoreIdxAux remId l n old
      ∧ restoreIdxAux remId l n old < (l.length : Int)
      ∧ (stGet l (restoreIdxAux remId l n old)).id = remId := by
  intro n
  induction n with
  | zero =>
    intro _ old _ hex
    obtain ⟨i, hi, _⟩ := hex
    omega
  | succ m ih =>
    intro hle old hrem hex
    rw [restoreIdxAux_succ]
    by_cases hc : (stGet l (m : Int)).id = remId
    · rw [if_pos ⟨hrem, hc⟩]
      exact ⟨by omega, by omega, hc⟩
    · rw [if_neg (fun hand => hc hand.2)]
      obtain ⟨i, hi, hid⟩ := hex
      have him : i < m := by
        rcases Nat.lt_succ_iff_lt_or_eq.mp hi with h | h
        · exact h
        · subst h; exact absurd hid hc
      exact ih (by omega) old hrem ⟨i, him, hid⟩

/-- The index-restore loop moves the index to a position carrying the
remembered (non-empty) id whenever such a position exists. -/
theorem restoreIdx_spec (remId : String) (l : List Station) (old : Int)
    (hrem : 0 < remId.length)
    (hex : ∃ i, i < l.length ∧ (stGet l (i : Int)).id = remId) :
    0 ≤ restoreIdx remId l old ∧ restoreIdx remId l old < (l.length : Int)
    ∧ (stGet l (restoreIdx remId l old)).id = remId := by
  unfold restoreIdx
  exact restoreIdxAux_spec remId l l.length le_rfl old hrem hex

theorem exists_id_index (l : List Station) (x : Station) (hx : x ∈ l) :
    ∃ i, i < l.length ∧ (stGet l (i : Int)).id = x.id := by
  obtain ⟨n, hn, hget⟩ := List.mem_iff_getElem.mp hx
  refine ⟨n, hn, ?_⟩
  rw [stGet, show ((n : Int)).toNat = n by omega,
      List.getD_eq_getElem?_getD, List.getElem?_eq_getElem hn]
  simp [hget]

theorem stGet_mem (l : List Station) (i : Int) (h0 : 0 ≤ i)
    (h1 : i < (l.length : Int)) : stGet l i ∈ l := by
  have hn : i.toNat < l.length := by omega
  rw [stGet, List.getD_eq_getElem?_getD, List.getElem?_eq_getElem hn]
  exact List.getElem_mem hn

/-- C10 (amended): with distinct station ids, `sortStations` replaces the
list by its stable favorites-first partition, and each of `selectedIdx` and
`playingIdx` afterwards points at a station with the id it pointed at before
— provided the index was valid and that id is non-empty (an empty id
disables the restore loop). -/
theorem sortStations_spec (s : GState) (hnd : (s.stations.map (·.id)).Nodup) :
    (sortStations s).stations
        = s.stations.filter (·.fav) ++ s.stations.filter (fun t => !t.fav)
    ∧ (0 ≤ s.selectedIdx → s.selectedIdx < stationCount s →
        (stGet s.stations s.selectedIdx).id ≠ "" →
        0 ≤ (sortStations s).selectedIdx
        ∧ (sortStations s).selectedIdx < stationCount s
        ∧ (stGet (sortStations s).stations (sortStations s).selectedIdx).id
            = (stGet s.stations s.selectedIdx).id)
    ∧ (0 ≤ s.playingIdx → s.playingIdx < stationCount s →
        (stGet s.stations s.playingIdx).id ≠ "" →
        0 ≤ (sortStations s).playingIdx
        ∧ (sortStations s).playingIdx < stationCount s
        ∧ (stGet (sortStations s).stations (sortStations s).playingIdx).id
            = (stGet s.stations s.playingIdx).id) := by
  have hstations : (sortStations s).stations = sortStationsList s.stations := by
    simp [sortStations, ensureVisible]
  have hlen : (sortStationsList s.stations).length = s.stations.length := by
    unfold sortStationsList
    exact List.length_mergeSort s.stations
  refine ⟨by rw [hstations]; exact sortStationsList_eq s.stations, ?_, ?_⟩
  · intro h0 h1 hid
    have hsel : (sortStations s).selectedIdx
        = restoreIdx (stGet s.stations s.selectedIdx).id
            (sortStationsList s.stations) s.selectedIdx := by
      simp [sortStations, ensureVisible, h0, h1]
    have hrem := string_length_pos hid
    have hxmem : stGet s.stations s.selectedIdx ∈ s.stations :=
      stGet_mem s.stations s.selectedIdx h0 (by simpa [stationCount] using h1)
    have hxmem2 : stGet s.stations s.selectedIdx ∈ sortStationsList s.stations :=
      ((List.mergeSort_perm s.stations favLE).mem_iff).mpr hxmem
    have hspec := restoreIdx_spec (stGet s.stations s.selectedIdx).id
      (sortStationsList s.stations) s.selectedIdx hrem
      (exists_id_index _ _ hxmem2)
    refine ⟨by rw [hsel]; exact hspec.1, ?_, by rw [hstations, hsel]; exact hspec.2.2⟩
    rw [hsel]
    have h2 := hspec.2.1
    rw [hlen] at h2
    simpa [stationCount] using h2
  · intro h0 h1 hid
    have hsel : (sortStations s).playingIdx
        = restoreIdx (stGet s.stations s.playingIdx).id
            (sortStationsList s.stations) s.playingIdx := by
      simp [sortStations, ensureVisible, h0, h1]
    have hrem := string_length_pos hid
    have hxmem : stGet s.stations s.playingIdx ∈ s.stations :=
      stGet_mem s.stations s.playingIdx h0 (by simpa [stationCount] using h1)
    have hxmem2 : stGet s.stations s.playingIdx ∈ sortStationsList s.stations :=
      ((List.mergeSort_perm s.stations favLE).mem_iff).mpr hxmem
    have hspec := restoreIdx_spec (stGet s.stations s.playingIdx).id
      (sortStationsList s.stations) s.playingIdx hrem
      (exists_id_index _ _ hxmem2)
    refine ⟨by rw [hsel]; exact hspec.1, ?_, by rw [hstations, hsel]; exact hspec.2.2⟩
    rw [hsel]
    have h2 := hspec.2.1
    rw [hlen] at h2
    simpa [stationCount] using h2

/-- Closed instance of `sortStations_spec`. -/
theorem sortStations_spec_witness :
    (sortStations gDemo).stations
        = gDemo.stations.filter (·.fav) ++ gDemo.stations.filter (fun t => !t.fav)
    ∧ (stGet (sortStations gDemo).stations (sortStations gDemo).selectedIdx).id
        = (stGet gDemo.stations gDemo.selectedIdx).id := by
  have h := sortStations_spec gDemo (by decide)
  exact ⟨h.1, (h.2.1 (by decide) (by decide) (by decide)).2.2⟩

/-- C10 counterexample: ids are distinct and `selectedIdx` is valid, but the
selected station's id is the empty string, so the restore loop is disabled:
after the sort, `selectedIdx` points at a station with a different id. -/
theorem sortStations_counterexample :
    ((gEmptyId.stations.map (·.id)).Nodup)
    ∧ 0 ≤ gEmptyId.selectedIdx
    ∧ gEmptyId.selectedIdx < stationCount gEmptyId
    ∧ (stGet gEmptyId.stations gEmptyId.selectedIdx).id = ""
    ∧ (sortStations gEmptyId).selectedIdx = 0
    ∧ (stGet (sortStations gEmptyId).stations (sortStations gEmptyId).selectedIdx).id
        = "dronezone" := by
  have hlist : sortStationsList gEmptyId.stations = [stB, stE] := by
    rw [sortStationsList_eq]
    decide
  refine ⟨by decide, by decide, by decide, by decide, ?_, ?_⟩ <;>
    (simp only [sortStations]; rw [hlist]; decide)

end SomaFM
